import Mathlib

set_option linter.unusedVariables false

/-! Shallow embedding of the SumThreshold RFI detector
(src/tlpipe/rfi/sum_threshold.py, class SumThreshold).

A 2-D visibility array is embedded as a function from row and column index
to a rational sample value; the boolean mask likewise.  The numpy arrays
carry explicit height/width bounds, passed separately.

One Python 2 detail is reproduced faithfully: in the length > 1 branch the
priming loop (for right in xrange(length-1)) leaves the loop variable with
value right = length - 2 after it finishes, so the while loop that follows
starts by re-reading the sample at index length - 2 rather than at the
window's right edge length - 1. -/

/-- Visibility grid: row index and column index to sample value. -/
abbrev Grid : Type := ℕ → ℕ → ℚ

/-- Boolean mask grid: row index and column index to flag. -/
abbrev Mask : Type := ℕ → ℕ → Bool

/-- Pointwise update of one mask cell (numpy assignment mask[y, x] = b). -/
def updCell (m : Mask) (y x : ℕ) (b : Bool) : Mask :=
  fun y' x' => if y' = y ∧ x' = x then b else m y' x'

/-- Replace row y of a mask grid (the horizontal pass writes row y of tmp_mask). -/
def updRow (m : Mask) (y : ℕ) (r : ℕ → Bool) : Mask :=
  fun y' x' => if y' = y then r x' else m y' x'

/-- Replace column x of a mask grid (the vertical pass writes column x of tmp_mask). -/
def updCol (m : Mask) (x : ℕ) (c : ℕ → Bool) : Mask :=
  fun y' x' => if x' = x then c y' else m y' x'

/-- Inner x-loop of the length == 1 branch for a fixed row y: flag every
unmasked sample of the row whose value exceeds the threshold. -/
def lenOneRow (vis : Grid) (threshold : ℚ) (y w : ℕ) (m : Mask) : Mask :=
  (List.range w).foldl
    (fun m x => if (!(m y x)) && decide (vis y x > threshold) then updCell m y x true else m) m

/-- Branch for length == 1 of horizontal_sum_threshold and of
vertical_sum_threshold; the two methods contain this double loop verbatim
(for y in xrange(height): for x in xrange(width): per-sample test on the
live mask). -/
def lenOnePass (height width : ℕ) (vis : Grid) (threshold : ℚ) (m : Mask) : Mask :=
  (List.range height).foldl (fun m y => lenOneRow vis threshold y width m) m

/-- Slice assignment tmp_mask[y, left:left+length] = True restricted to one
row, clipped at the row extent w exactly as a numpy slice is. -/
def setRangeRow (tmp : ℕ → Bool) (left length w : ℕ) : ℕ → Bool :=
  fun i => tmp i || (decide (left ≤ i) && decide (i < left + length) && decide (i < w))

/-- Priming loop of the horizontal pass: accumulate sum and count of the
unmasked samples at indices 0 .. length-2 of the row. -/
def primeH (visRow : ℕ → ℚ) (maskRow : ℕ → Bool) (length : ℕ) : ℚ × ℤ :=
  (List.range (length - 1)).foldl
    (fun p r => if !(maskRow r) then (p.1 + visRow r, p.2 + 1) else p) (0, 0)

/-- While loop (while right < width) of the horizontal pass on one row.
The fuel argument bounds the number of iterations: right increases by one
per iteration and the loop runs only while right < w, so fuel = w is enough
for the entry value right = length - 2. -/
def slideH (visRow : ℕ → ℚ) (maskRow : ℕ → Bool) (w length : ℕ) (threshold : ℚ) :
    ℕ → ℕ → ℕ → ℚ → ℤ → (ℕ → Bool) → (ℕ → Bool)
  | 0, _, _, _, _, tmp => tmp
  | fuel + 1, left, right, sm, cnt, tmp =>
    if right < w then
      -- add the sample at the right
      let sm1 := if !(maskRow right) then sm + visRow right else sm
      let cnt1 := if !(maskRow right) then cnt + 1 else cnt
      -- check
      let tmp1 := if 0 < cnt1 ∧ sm1 / (cnt1 : ℚ) > threshold
                  then setRangeRow tmp left length w else tmp
      -- subtract the sample at the left
      let sm2 := if !(maskRow left) then sm1 - visRow left else sm1
      let cnt2 := if !(maskRow left) then cnt1 - 1 else cnt1
      slideH visRow maskRow w length threshold fuel (left + 1) (right + 1) sm2 cnt2 tmp1
    else tmp

/-- One row of the length > 1 horizontal pass: the priming loop followed by
the while loop, entered with left = 0 and right = length - 2 (the value the
Python 2 loop variable holds after the priming loop; length >= 2 here). -/
def horizRow (w length : ℕ) (threshold : ℚ) (visRow : ℕ → ℚ) (maskRow : ℕ → Bool)
    (tmpRow : ℕ → Bool) : ℕ → Bool :=
  slideH visRow maskRow w length threshold w 0 (length - 2)
    (primeH visRow maskRow length).1 (primeH visRow maskRow length).2 tmpRow

/-- SumThreshold.horizontal_sum_threshold: return unchanged when
length > width; per-sample test when length == 1; otherwise run the sliding
window over each row y against the snapshot mask, writing flags into the
copy tmp_mask (whose row y starts as the snapshot's row y), and commit the
copy as the new mask. -/
def horizontal_sum_threshold (height width : ℕ) (vis : Grid) (mask : Mask)
    (length : ℕ) (threshold : ℚ) : Mask :=
  if length > width then mask
  else if length = 1 then lenOnePass height width vis threshold mask
  else if 1 < length then
    (List.range height).foldl
      (fun tmp y => updRow tmp y (horizRow width length threshold (vis y) (mask y) (tmp y)))
      mask
  else mask

/-- Priming loop of the vertical pass: accumulate sum and count of the
unmasked samples at indices 0 .. length-2 of the column. -/
def primeV (visCol : ℕ → ℚ) (maskCol : ℕ → Bool) (length : ℕ) : ℚ × ℤ :=
  (List.range (length - 1)).foldl
    (fun p b => if !(maskCol b) then (p.1 + visCol b, p.2 + 1) else p) (0, 0)

/-- While loop (while bottom < height) of the vertical pass on one column,
with top/bottom in place of left/right; same fuel discipline as slideH. -/
def slideV (visCol : ℕ → ℚ) (maskCol : ℕ → Bool) (h length : ℕ) (threshold : ℚ) :
    ℕ → ℕ → ℕ → ℚ → ℤ → (ℕ → Bool) → (ℕ → Bool)
  | 0, _, _, _, _, tmp => tmp
  | fuel + 1, top, bottom, sm, cnt, tmp =>
    if bottom < h then
      -- add the sample at the bottom
      let sm1 := if !(maskCol bottom) then sm + visCol bottom else sm
      let cnt1 := if !(maskCol bottom) then cnt + 1 else cnt
      -- check
      let tmp1 := if 0 < cnt1 ∧ sm1 / (cnt1 : ℚ) > threshold
                  then setRangeRow tmp top length h else tmp
      -- subtract the sample at the top
      let sm2 := if !(maskCol top) then sm1 - visCol top else sm1
      let cnt2 := if !(maskCol top) then cnt1 - 1 else cnt1
      slideV visCol maskCol h length threshold fuel (top + 1) (bottom + 1) sm2 cnt2 tmp1
    else tmp

/-- One column of the length > 1 vertical pass: priming loop then while
loop, entered with top = 0 and bottom = length - 2. -/
def vertCol (h length : ℕ) (threshold : ℚ) (visCol : ℕ → ℚ) (maskCol : ℕ → Bool)
    (tmpCol : ℕ → Bool) : ℕ → Bool :=
  slideV visCol maskCol h length threshold h 0 (length - 2)
    (primeV visCol maskCol length).1 (primeV visCol maskCol length).2 tmpCol

/-- SumThreshold.vertical_sum_threshold: return unchanged when
length > height; per-sample test when length == 1; otherwise run the
sliding window over each column x against the snapshot mask, writing flags
into the copy tmp_mask, and commit the copy as the new mask. -/
def vertical_sum_threshold (height width : ℕ) (vis : Grid) (mask : Mask)
    (length : ℕ) (threshold : ℚ) : Mask :=
  if length > height then mask
  else if length = 1 then lenOnePass height width vis threshold mask
  else if 1 < length then
    (List.range width).foldl
      (fun tmp x => updCol tmp x
        (vertCol height length threshold (fun y => vis y x) (fun y => mask y x)
          (fun y => tmp y x)))
      mask
  else mask

/-- SumThreshold.execute_threshold: for each (length, threshold) pair of the
schedule apply the horizontal and then the vertical pass at the scaled
threshold factor * threshold. -/
def execute_threshold (height width : ℕ) (vis : Grid) (schedule : List (ℕ × ℚ))
    (factor : ℚ) (mask : Mask) : Mask :=
  schedule.foldl
    (fun m p =>
      vertical_sum_threshold height width vis
        (horizontal_sum_threshold height width vis m p.1 (factor * p.2))
        p.1 (factor * p.2))
    mask

/-- Clamp applied in SumThreshold.__init__: self.min_connected = max(1, min_connected). -/
def clampMinConnected (min_connected : ℤ) : ℤ := max 1 min_connected

/-- Modelled from the spec: CombinatorialThreshold.execute lives in
combinatorial_threshold.py, which is not under src/.  Per section 4.2 of the
spec it runs every scheduled (length, threshold) pass, horizontal then
vertical, with thresholds scaled by sensitivity, i.e. it is
execute_threshold with factor = sensitivity. -/
def combinatorialExecute (height width : ℕ) (vis : Grid) (schedule : List (ℕ × ℚ))
    (sensitivity : ℚ) (mask : Mask) : Mask :=
  execute_threshold height width vis schedule sensitivity mask

/-- Error raised by SumThreshold.execute once min_connected > 1 (the
NotImplementedError of the code, the UnsupportedFeatureError of the spec). -/
inductive ExecError : Type
  | notImplemented : ExecError

/-- SumThreshold.execute: run the superclass execute (all threshold passes),
then raise when the clamped min_connected exceeds 1.  The result pairs the
final mask state with the error raised, if any. -/
def execute (height width : ℕ) (vis : Grid) (schedule : List (ℕ × ℚ))
    (min_connected : ℤ) (sensitivity : ℚ) (mask : Mask) : Mask × Option ExecError :=
  let m := combinatorialExecute height width vis schedule sensitivity mask
  if 1 < clampMinConnected min_connected then (m, some ExecError.notImplemented)
  else (m, none)

/-- Instrumented copy of the slideH loop that records, at each check step,
the triple (left, sm, cnt) as of the moment the window starting at left is
tested; the threshold plays no role in the recorded state. -/
def slideHTrace (visRow : ℕ → ℚ) (maskRow : ℕ → Bool) (w : ℕ) :
    ℕ → ℕ → ℕ → ℚ → ℤ → List (ℕ × ℚ × ℤ)
  | 0, _, _, _, _ => []
  | fuel + 1, left, right, sm, cnt =>
    if right < w then
      let sm1 := if !(maskRow right) then sm + visRow right else sm
      let cnt1 := if !(maskRow right) then cnt + 1 else cnt
      let sm2 := if !(maskRow left) then sm1 - visRow left else sm1
      let cnt2 := if !(maskRow left) then cnt1 - 1 else cnt1
      (left, sm1, cnt1) :: slideHTrace visRow maskRow w fuel (left + 1) (right + 1) sm2 cnt2
    else []

/-- Tested (left, sm, cnt) triples of one row of the length > 1 horizontal
pass, in window order. -/
def horizRowTrace (w length : ℕ) (visRow : ℕ → ℚ) (maskRow : ℕ → Bool) :
    List (ℕ × ℚ × ℤ) :=
  slideHTrace visRow maskRow w w 0 (length - 2)
    (primeH visRow maskRow length).1 (primeH visRow maskRow length).2

/-- Sum, in the spec's words, of the unmasked samples of the window
[left, left + length) of a row. -/
def specWindowSum (visRow : ℕ → ℚ) (maskRow : ℕ → Bool) (left length : ℕ) : ℚ :=
  (List.range length).foldl
    (fun s i => if !(maskRow (left + i)) then s + visRow (left + i) else s) 0

/-- Count, in the spec's words, of the unmasked samples of the window
[left, left + length) of a row. -/
def specWindowCnt (maskRow : ℕ → Bool) (left length : ℕ) : ℕ :=
  (List.range length).foldl
    (fun c i => if !(maskRow (left + i)) then c + 1 else c) 0

/-- Grid described by a list of rows, 0 outside. -/
def gridOfList (rows : List (List ℚ)) : Grid :=
  fun y x => ((rows.getD y []).getD x 0)

/-- Mask described by a list of rows, false outside. -/
def maskOfList (rows : List (List Bool)) : Mask :=
  fun y x => ((rows.getD y []).getD x false)

/-- All-false mask. -/
def emptyMask : Mask := fun _ _ => false

/-- Scenario A and B visibility: the single row [1,1,1,1,9,1,1,1]. -/
def visAB : Grid := gridOfList [[1, 1, 1, 1, 9, 1, 1, 1]]

/-- Failing input for claim C1: the single row [0, 4]. -/
def visC1 : Grid := gridOfList [[0, 4]]

/-- Failing input for claim C3: the single row [9, 0, 0]. -/
def visC3 : Grid := gridOfList [[9, 0, 0]]

/-- Counterexample input for claim C6: the single row [1, 0, 2]. -/
def visC6 : Grid := gridOfList [[1, 0, 2]]


/-! Characterization of the length == 1 branch. -/

theorem lenOneRow_apply (vis : Grid) (threshold : ℚ) (y : ℕ) :
    ∀ (w : ℕ) (m : Mask) (y' x' : ℕ),
      lenOneRow vis threshold y w m y' x' =
        if y' = y ∧ x' < w then m y' x' || decide (vis y x' > threshold) else m y' x' := by
  intro w
  induction w with
  | zero => intro m y' x'; simp [lenOneRow]
  | succ w ih =>
    intro m y' x'
    have hstep : lenOneRow vis threshold y (w + 1) m =
        if (!(lenOneRow vis threshold y w m y w)) && decide (vis y w > threshold)
        then updCell (lenOneRow vis threshold y w m) y w true
        else lenOneRow vis threshold y w m := by
      simp [lenOneRow, List.range_succ]
    have hcurw : lenOneRow vis threshold y w m y w = m y w := by rw [ih]; simp
    rw [hstep, hcurw]
    split
    · rename_i hcond
      rw [Bool.and_eq_true, Bool.not_eq_true', decide_eq_true_eq] at hcond
      obtain ⟨hm, hv⟩ := hcond
      rw [updCell]
      by_cases hyx : y' = y ∧ x' = w
      · obtain ⟨hy, hx⟩ := hyx
        subst hy
        subst hx
        rw [if_pos ⟨rfl, rfl⟩, if_pos ⟨rfl, Nat.lt_succ_self _⟩, hm]
        simp [hv]
      · rw [if_neg hyx, ih]
        by_cases hy : y' = y
        · have hxw : x' ≠ w := fun h => hyx ⟨hy, h⟩
          by_cases hx : x' < w
          · rw [if_pos ⟨hy, hx⟩, if_pos ⟨hy, by omega⟩]
          · rw [if_neg (by rintro ⟨h1, h2⟩; omega), if_neg (by rintro ⟨h1, h2⟩; omega)]
        · rw [if_neg (by tauto), if_neg (by tauto)]
    · rename_i hcond
      rw [Bool.and_eq_true, Bool.not_eq_true', decide_eq_true_eq] at hcond
      push_neg at hcond
      rw [ih]
      by_cases hyx : y' = y ∧ x' = w
      · obtain ⟨hy, hx⟩ := hyx
        subst hy
        subst hx
        rw [if_neg (by rintro ⟨h1, h2⟩; omega), if_pos ⟨rfl, Nat.lt_succ_self _⟩]
        cases hm : m y' x' with
        | true => simp
        | false => simp [hcond hm]
      · by_cases hy : y' = y
        · have hxw : x' ≠ w := fun h => hyx ⟨hy, h⟩
          by_cases hx : x' < w
          · rw [if_pos ⟨hy, hx⟩, if_pos ⟨hy, by omega⟩]
          · rw [if_neg (by rintro ⟨h1, h2⟩; omega), if_neg (by rintro ⟨h1, h2⟩; omega)]
        · rw [if_neg (by tauto), if_neg (by tauto)]

theorem lenOnePass_apply (vis : Grid) (threshold : ℚ) :
    ∀ (height width : ℕ) (m : Mask) (y x : ℕ),
      lenOnePass height width vis threshold m y x =
        if y < height ∧ x < width then m y x || decide (vis y x > threshold) else m y x := by
  intro height
  induction height with
  | zero => intro width m y x; simp [lenOnePass]
  | succ hh ih =>
    intro width m y x
    have hstep : lenOnePass (hh + 1) width vis threshold m =
        lenOneRow vis threshold hh width (lenOnePass hh width vis threshold m) := by
      simp [lenOnePass, List.range_succ]
    rw [hstep, lenOneRow_apply]
    by_cases hy : y = hh
    · subst hy
      by_cases hx : x < width
      · rw [if_pos ⟨rfl, hx⟩, ih]
        simp [hx]
      · rw [if_neg (by tauto), ih]
        rw [if_neg (by rintro ⟨h1, h2⟩; exact hx h2), if_neg (by rintro ⟨h1, h2⟩; exact hx h2)]
    · rw [if_neg (by tauto), ih]
      by_cases hylt : y < hh
      · by_cases hx : x < width
        · rw [if_pos ⟨hylt, hx⟩, if_pos ⟨by omega, hx⟩]
        · rw [if_neg (by tauto), if_neg (by tauto)]
      · rw [if_neg (by rintro ⟨h1, h2⟩; exact hylt h1),
            if_neg (by rintro ⟨h1, h2⟩; omega)]

/-! Lemmas about the sliding-window while loop. -/

theorem setRangeRow_mono (tmp : ℕ → Bool) (left length w i : ℕ) (h : tmp i = true) :
    setRangeRow tmp left length w i = true := by
  simp [setRangeRow, h]

theorem setRangeRow_high (tmp : ℕ → Bool) (left length w i : ℕ) (h : w ≤ i) :
    setRangeRow tmp left length w i = tmp i := by
  simp [setRangeRow]
  omega

theorem ite_setRange_mono (c : Prop) [Decidable c] (tmp : ℕ → Bool) (a b w i : ℕ)
    (h : tmp i = true) : (if c then setRangeRow tmp a b w else tmp) i = true := by
  split
  · exact setRangeRow_mono _ _ _ _ _ h
  · exact h

theorem ite_setRange_high (c : Prop) [Decidable c] (tmp : ℕ → Bool) (a b w i : ℕ)
    (h : w ≤ i) : (if c then setRangeRow tmp a b w else tmp) i = tmp i := by
  split
  · exact setRangeRow_high _ _ _ _ _ h
  · rfl

theorem slideH_mono (visRow : ℕ → ℚ) (maskRow : ℕ → Bool) (w length : ℕ) (threshold : ℚ) :
    ∀ (fuel left right : ℕ) (sm : ℚ) (cnt : ℤ) (tmp : ℕ → Bool) (i : ℕ),
      tmp i = true →
      slideH visRow maskRow w length threshold fuel left right sm cnt tmp i = true := by
  intro fuel
  induction fuel with
  | zero => intro left right sm cnt tmp i h; simpa [slideH] using h
  | succ fuel ih =>
    intro left right sm cnt tmp i h
    rw [slideH]
    split
    · exact ih _ _ _ _ _ _ (ite_setRange_mono _ _ _ _ _ _ h)
    · exact h

theorem slideH_high (visRow : ℕ → ℚ) (maskRow : ℕ → Bool) (w length : ℕ) (threshold : ℚ) :
    ∀ (fuel left right : ℕ) (sm : ℚ) (cnt : ℤ) (tmp : ℕ → Bool) (i : ℕ),
      w ≤ i →
      slideH visRow maskRow w length threshold fuel left right sm cnt tmp i = tmp i := by
  intro fuel
  induction fuel with
  | zero => intro left right sm cnt tmp i h; simp [slideH]
  | succ fuel ih =>
    intro left right sm cnt tmp i h
    rw [slideH]
    split
    · rw [ih _ _ _ _ _ _ h]
      exact ite_setRange_high _ _ _ _ _ _ h
    · rfl

theorem slideV_eq_slideH (visCol : ℕ → ℚ) (maskCol : ℕ → Bool) (h length : ℕ) (threshold : ℚ) :
    ∀ (fuel top bottom : ℕ) (sm : ℚ) (cnt : ℤ) (tmp : ℕ → Bool),
      slideV visCol maskCol h length threshold fuel top bottom sm cnt tmp =
      slideH visCol maskCol h length threshold fuel top bottom sm cnt tmp := by
  intro fuel
  induction fuel with
  | zero => intro top bottom sm cnt tmp; rfl
  | succ fuel ih =>
    intro top bottom sm cnt tmp
    rw [slideV, slideH]
    split
    · exact ih _ _ _ _ _
    · rfl

theorem primeV_eq_primeH : primeV = primeH := rfl

theorem vertCol_eq_horizRow (h length : ℕ) (threshold : ℚ) (visCol : ℕ → ℚ)
    (maskCol : ℕ → Bool) (tmpCol : ℕ → Bool) :
    vertCol h length threshold visCol maskCol tmpCol =
    horizRow h length threshold visCol maskCol tmpCol := by
  rw [vertCol, horizRow, slideV_eq_slideH, primeV_eq_primeH]

theorem horizRow_mono (w length : ℕ) (threshold : ℚ) (visRow : ℕ → ℚ) (maskRow : ℕ → Bool)
    (tmpRow : ℕ → Bool) (i : ℕ) (h : tmpRow i = true) :
    horizRow w length threshold visRow maskRow tmpRow i = true :=
  slideH_mono _ _ _ _ _ _ _ _ _ _ _ _ h

theorem horizRow_high (w length : ℕ) (threshold : ℚ) (visRow : ℕ → ℚ) (maskRow : ℕ → Bool)
    (tmpRow : ℕ → Bool) (i : ℕ) (h : w ≤ i) :
    horizRow w length threshold visRow maskRow tmpRow i = tmpRow i :=
  slideH_high _ _ _ _ _ _ _ _ _ _ _ _ h

/-! Characterization of the length > 1 passes: each line of the committed
mask is the slide result of that line against the snapshot, other lines are
unchanged. -/

theorem horizFold_apply (width length : ℕ) (threshold : ℚ) (vis : Grid) (mask : Mask) :
    ∀ (hh : ℕ) (y x : ℕ),
      ((List.range hh).foldl
        (fun tmp y => updRow tmp y (horizRow width length threshold (vis y) (mask y) (tmp y)))
        mask) y x =
      if y < hh then horizRow width length threshold (vis y) (mask y) (mask y) x
      else mask y x := by
  intro hh
  induction hh with
  | zero => intro y x; simp
  | succ hh ih =>
    intro y x
    rw [List.range_succ, List.foldl_append, List.foldl_cons, List.foldl_nil]
    have hrow : ((List.range hh).foldl
        (fun tmp y => updRow tmp y (horizRow width length threshold (vis y) (mask y) (tmp y)))
        mask) hh = mask hh := by
      funext x'
      rw [ih]
      simp
    rw [updRow, hrow]
    by_cases hy : y = hh
    · subst hy
      rw [if_pos rfl, if_pos (Nat.lt_succ_self _)]
    · rw [if_neg hy, ih]
      by_cases hylt : y < hh
      · rw [if_pos hylt, if_pos (by omega)]
      · rw [if_neg hylt, if_neg (by omega)]

theorem vertFold_apply (height length : ℕ) (threshold : ℚ) (vis : Grid) (mask : Mask) :
    ∀ (ww : ℕ) (y x : ℕ),
      ((List.range ww).foldl
        (fun tmp x => updCol tmp x
          (vertCol height length threshold (fun yy => vis yy x) (fun yy => mask yy x)
            (fun yy => tmp yy x)))
        mask) y x =
      if x < ww then
        vertCol height length threshold (fun yy => vis yy x) (fun yy => mask yy x)
          (fun yy => mask yy x) y
      else mask y x := by
  intro ww
  induction ww with
  | zero => intro y x; simp
  | succ ww ih =>
    intro y x
    rw [List.range_succ, List.foldl_append, List.foldl_cons, List.foldl_nil]
    have hcol : (fun yy => ((List.range ww).foldl
        (fun tmp x => updCol tmp x
          (vertCol height length threshold (fun yy => vis yy x) (fun yy => mask yy x)
            (fun yy => tmp yy x)))
        mask) yy ww) = fun yy => mask yy ww := by
      funext yy
      rw [ih]
      simp
    rw [updCol, hcol]
    by_cases hx : x = ww
    · subst hx
      rw [if_pos rfl, if_pos (Nat.lt_succ_self _)]
    · rw [if_neg hx, ih]
      by_cases hxlt : x < ww
      · rw [if_pos hxlt, if_pos (by omega)]
      · rw [if_neg hxlt, if_neg (by omega)]

theorem horizontal_apply_gt_one (height width length : ℕ) (threshold : ℚ) (vis : Grid)
    (mask : Mask) (hL : 1 < length) (hLw : ¬ length > width) (y x : ℕ) :
    horizontal_sum_threshold height width vis mask length threshold y x =
      if y < height then horizRow width length threshold (vis y) (mask y) (mask y) x
      else mask y x := by
  rw [horizontal_sum_threshold, if_neg hLw, if_neg (by omega), if_pos hL]
  exact horizFold_apply _ _ _ _ _ _ _ _

theorem vertical_apply_gt_one (height width length : ℕ) (threshold : ℚ) (vis : Grid)
    (mask : Mask) (hL : 1 < length) (hLh : ¬ length > height) (y x : ℕ) :
    vertical_sum_threshold height width vis mask length threshold y x =
      if x < width then
        vertCol height length threshold (fun yy => vis yy x) (fun yy => mask yy x)
          (fun yy => mask yy x) y
      else mask y x := by
  rw [vertical_sum_threshold, if_neg hLh, if_neg (by omega), if_pos hL]
  exact vertFold_apply _ _ _ _ _ _ _ _

/-! Monotonic mask growth. -/

theorem horizontal_mono (height width length : ℕ) (threshold : ℚ) (vis : Grid)
    (mask : Mask) (y x : ℕ) (h : mask y x = true) :
    horizontal_sum_threshold height width vis mask length threshold y x = true := by
  rw [horizontal_sum_threshold]
  split
  · exact h
  · split
    · rw [lenOnePass_apply]
      split
      · rw [h, Bool.true_or]
      · exact h
    · split
      · rw [horizFold_apply]
        split
        · exact horizRow_mono _ _ _ _ _ _ _ h
        · exact h
      · exact h

theorem vertical_mono (height width length : ℕ) (threshold : ℚ) (vis : Grid)
    (mask : Mask) (y x : ℕ) (h : mask y x = true) :
    vertical_sum_threshold height width vis mask length threshold y x = true := by
  rw [vertical_sum_threshold]
  split
  · exact h
  · split
    · rw [lenOnePass_apply]
      split
      · rw [h, Bool.true_or]
      · exact h
    · split
      · rw [vertFold_apply]
        split
        · rw [vertCol_eq_horizRow]
          exact horizRow_mono _ _ _ _ _ _ _ h
        · exact h
      · exact h

theorem executeThreshold_mono (height width : ℕ) (vis : Grid) (factor : ℚ) :
    ∀ (schedule : List (ℕ × ℚ)) (mask : Mask) (y x : ℕ),
      mask y x = true →
      execute_threshold height width vis schedule factor mask y x = true := by
  intro schedule
  induction schedule with
  | nil => intro mask y x h; simpa [execute_threshold] using h
  | cons p rest ih =>
    intro mask y x h
    rw [execute_threshold, List.foldl_cons]
    exact ih _ _ _ (vertical_mono _ _ _ _ _ _ _ _ (horizontal_mono _ _ _ _ _ _ _ _ h))

/-! Congruence: one line of a length > 1 pass reads only that line's
samples and snapshot-mask entries at indices below the line extent. -/

theorem ite_setRange_congr (c : Prop) [Decidable c] (t1 t2 : ℕ → Bool) (a b w i : ℕ)
    (h : t1 i = t2 i) :
    (if c then setRangeRow t1 a b w else t1) i = (if c then setRangeRow t2 a b w else t2) i := by
  split
  · simp only [setRangeRow, h]
  · exact h

theorem primeH_congr (length w : ℕ) (vr1 vr2 : ℕ → ℚ) (mr1 mr2 : ℕ → Bool)
    (hlw : length - 1 ≤ w)
    (hv : ∀ i, i < w → vr1 i = vr2 i) (hm : ∀ i, i < w → mr1 i = mr2 i) :
    primeH vr1 mr1 length = primeH vr2 mr2 length := by
  rw [primeH, primeH]
  apply List.foldl_ext
  intro p r hr
  rw [List.mem_range] at hr
  rw [hv r (by omega), hm r (by omega)]

theorem slideH_congr (w length : ℕ) (threshold : ℚ) (vr1 vr2 : ℕ → ℚ) (mr1 mr2 : ℕ → Bool)
    (hv : ∀ i, i < w → vr1 i = vr2 i) (hm : ∀ i, i < w → mr1 i = mr2 i) :
    ∀ (fuel left right : ℕ) (sm : ℚ) (cnt : ℤ) (t1 t2 : ℕ → Bool),
      (∀ i, i < w → t1 i = t2 i) → left ≤ right →
      ∀ x, x < w →
        slideH vr1 mr1 w length threshold fuel left right sm cnt t1 x =
        slideH vr2 mr2 w length threshold fuel left right sm cnt t2 x := by
  intro fuel
  induction fuel with
  | zero =>
    intro left right sm cnt t1 t2 ht hlr x hx
    simpa [slideH] using ht x hx
  | succ fuel ih =>
    intro left right sm cnt t1 t2 ht hlr x hx
    rw [slideH, slideH]
    by_cases hr : right < w
    · rw [if_pos hr, if_pos hr]
      rw [← hv right hr, ← hm right hr, ← hv left (by omega), ← hm left (by omega)]
      apply ih _ _ _ _ _ _ _ (by omega) _ hx
      intro i hi
      exact ite_setRange_congr _ _ _ _ _ _ _ (ht i hi)
    · rw [if_neg hr, if_neg hr]
      exact ht x hx

theorem horizRow_congr (w length : ℕ) (threshold : ℚ) (vr1 vr2 : ℕ → ℚ)
    (mr1 mr2 : ℕ → Bool) (t1 t2 : ℕ → Bool) (hlw : length ≤ w)
    (hv : ∀ i, i < w → vr1 i = vr2 i) (hm : ∀ i, i < w → mr1 i = mr2 i)
    (ht : ∀ i, i < w → t1 i = t2 i) (x : ℕ) (hx : x < w) :
    horizRow w length threshold vr1 mr1 t1 x = horizRow w length threshold vr2 mr2 t2 x := by
  rw [horizRow, horizRow, primeH_congr length w vr1 vr2 mr1 mr2 (by omega) hv hm]
  exact slideH_congr w length threshold vr1 vr2 mr1 mr2 hv hm _ _ _ _ _ _ _ ht (by omega) x hx

/-! Claim theorems. -/

/-- C1: the claim that the running sum S and count C at each window test
equal the window's unmasked sum and count fails on the code.  On the row
[0, 4] with the empty mask and length 2, the first window [0, 2) is tested
with running sum 0 and count 2, although the window's unmasked sum is 4:
the Python 2 priming loop leaves right = 0, so the while loop re-adds the
sample at index 0 and the sample at index 1 is not yet in the sum. -/
theorem c1_running_state_diverges :
    horizRowTrace 2 2 (visC1 0) (emptyMask 0) = [(0, 0, 2), (1, 4, 2)] ∧
    specWindowSum (visC1 0) (emptyMask 0) 0 2 = 4 ∧
    specWindowCnt (emptyMask 0) 0 2 = 2 := by
  refine ⟨?_, ?_, ?_⟩ <;> with_unfolding_all decide

/-- C2 counterexample: on Scenario B (row [1,1,1,1,9,1,1,1], length 2,
threshold 3) the code leaves index 3 unflagged and flags index 5, so the
produced mask differs from the claimed [F,F,F,T,T,F,F,F] at both places. -/
theorem c2_counterexample :
    horizontal_sum_threshold 1 8 visAB emptyMask 2 3 0 3 = false ∧
    horizontal_sum_threshold 1 8 visAB emptyMask 2 3 0 5 = true := by
  constructor <;> with_unfolding_all decide

/-- C2 amended: the single horizontal pass with length 2 and threshold 3 on
the row [1,1,1,1,9,1,1,1] with the all-false mask produces exactly
[F,F,F,F,T,T,F,F]: the window test at left = 4 sees running sum
vis[4] + vis[0] = 10 over count 2, mean 5 > 3, and flags indices 4 and 5. -/
theorem c2_actual_mask :
    (List.range 8).map (fun x => horizontal_sum_threshold 1 8 visAB emptyMask 2 3 0 x) =
      [false, false, false, false, true, true, false, false] := by
  with_unfolding_all decide

/-- C3: the claim that a sample is flagged only if it lies in a
fully-in-bounds window whose unmasked mean exceeds the threshold fails on
the code.  On the row [9, 0, 0] with empty mask, length 2 and threshold 3,
the code flags index 2, yet the only fully-in-bounds length-2 window
containing index 2 starts at left = 1 and its unmasked mean 0 does not
exceed 3: the flag comes from the window starting at left = 2, which
extends past the end of the row and is tested on the last iteration. -/
theorem c3_out_of_bounds_window_flags :
    horizontal_sum_threshold 1 3 visC3 emptyMask 2 3 0 2 = true ∧
    (∀ left, left < 2 → left ≤ 2 → 2 < left + 2 →
      ¬ (0 < specWindowCnt (emptyMask 0) left 2 ∧
         specWindowSum (visC3 0) (emptyMask 0) left 2 /
           (specWindowCnt (emptyMask 0) left 2 : ℚ) > 3)) := by
  constructor
  · with_unfolding_all decide
  · with_unfolding_all decide

/-- C4: for length == 1 the pass flags an in-bounds position iff it was
unmasked and its value strictly exceeds the threshold; positions already
masked stay masked. -/
theorem c4_length_one_characterization (height width : ℕ) (vis : Grid) (mask : Mask)
    (threshold : ℚ) (y x : ℕ) (hy : y < height) (hx : x < width) :
    (mask y x = true → horizontal_sum_threshold height width vis mask 1 threshold y x = true) ∧
    (mask y x = false →
      (horizontal_sum_threshold height width vis mask 1 threshold y x = true ↔
        vis y x > threshold)) := by
  have hw : ¬ (1 > width) := by omega
  rw [horizontal_sum_threshold, if_neg hw, if_pos rfl, lenOnePass_apply, if_pos ⟨hy, hx⟩]
  constructor
  · intro h
    rw [h, Bool.true_or]
  · intro h
    rw [h, Bool.false_or]
    simp

/-- Witness for c4: Scenario A at (0, 4): value 9 exceeds threshold 5, the
position is unmasked, and the pass flags it. -/
theorem c4_witness :
    0 < 1 ∧ 4 < 8 ∧ emptyMask 0 4 = false ∧
    horizontal_sum_threshold 1 8 visAB emptyMask 1 5 0 4 = true :=
  ⟨by decide, by decide, rfl,
    ((c4_length_one_characterization 1 8 visAB emptyMask 5 0 4 (by decide) (by decide)).2
      rfl).mpr (by with_unfolding_all decide)⟩

/-- C5: the mask only grows: a horizontal pass, a vertical pass, and an
execute_threshold run each keep every already-true mask bit true. -/
theorem c5_mask_monotone (height width length : ℕ) (threshold : ℚ) (vis : Grid)
    (schedule : List (ℕ × ℚ)) (factor : ℚ) (mask : Mask) (y x : ℕ)
    (hm : mask y x = true) :
    horizontal_sum_threshold height width vis mask length threshold y x = true ∧
    vertical_sum_threshold height width vis mask length threshold y x = true ∧
    execute_threshold height width vis schedule factor mask y x = true :=
  ⟨horizontal_mono _ _ _ _ _ _ _ _ hm, vertical_mono _ _ _ _ _ _ _ _ hm,
   executeThreshold_mono _ _ _ _ _ _ _ _ hm⟩

/-- Witness for c5 at a pre-flagged cell. -/
theorem c5_witness :
    maskOfList [[true]] 0 0 = true ∧
    (horizontal_sum_threshold 1 1 visC1 (maskOfList [[true]]) 1 3 0 0 = true ∧
     vertical_sum_threshold 1 1 visC1 (maskOfList [[true]]) 1 3 0 0 = true ∧
     execute_threshold 1 1 visC1 [(1, 3)] 1 (maskOfList [[true]]) 0 0 = true) :=
  ⟨rfl, c5_mask_monotone 1 1 1 3 visC1 [(1, 3)] 1 (maskOfList [[true]]) 0 0 rfl⟩

/-- C6 counterexample: with schedule [(3, 1/2)] and factor 1 on the row
[1, 0, 2], the first execute_threshold run leaves (0,0) unflagged but a
second run on the first run's mask flags it: the second run is not a no-op. -/
theorem c6_counterexample :
    execute_threshold 1 3 visC6 [(3, 1/2)] 1 emptyMask 0 0 = false ∧
    execute_threshold 1 3 visC6 [(3, 1/2)] 1
      (execute_threshold 1 3 visC6 [(3, 1/2)] 1 emptyMask) 0 0 = true := by
  constructor <;> with_unfolding_all decide

/-- C6 amended: a second execute_threshold run with the same factor may add
flags but never clears one: the mask after the second run is a superset of
the mask after the first run. -/
theorem c6_second_run_superset (height width : ℕ) (vis : Grid)
    (schedule : List (ℕ × ℚ)) (factor : ℚ) (mask : Mask) (y x : ℕ)
    (h : execute_threshold height width vis schedule factor mask y x = true) :
    execute_threshold height width vis schedule factor
      (execute_threshold height width vis schedule factor mask) y x = true :=
  executeThreshold_mono _ _ _ _ _ _ _ _ h

/-- Witness for c6_second_run_superset at the cell (0,1) flagged by the
first run. -/
theorem c6_witness :
    execute_threshold 1 3 visC6 [(3, 1/2)] 1 emptyMask 0 1 = true ∧
    execute_threshold 1 3 visC6 [(3, 1/2)] 1
      (execute_threshold 1 3 visC6 [(3, 1/2)] 1 emptyMask) 0 1 = true :=
  ⟨by with_unfolding_all decide,
   c6_second_run_superset 1 3 visC6 [(3, 1/2)] 1 emptyMask 0 1
     (by with_unfolding_all decide)⟩

/-- C7: execute raises the unsupported-feature error exactly when the
(clamped) min_connected exceeds 1, and only after all threshold passes: the
mask component of the result always equals the full execute_threshold run,
whether or not the error is raised. -/
theorem c7_unsupported_error_after_passes (height width : ℕ) (vis : Grid)
    (schedule : List (ℕ × ℚ)) (min_connected : ℤ) (sensitivity : ℚ) (mask : Mask) :
    execute height width vis schedule min_connected sensitivity mask =
      (execute_threshold height width vis schedule sensitivity mask,
       if 1 < min_connected then some ExecError.notImplemented else none) := by
  simp only [execute, combinatorialExecute]
  have hiff : 1 < clampMinConnected min_connected ↔ 1 < min_connected := by
    rw [clampMinConnected, lt_max_iff]
    simp
  by_cases h : 1 < min_connected
  · rw [if_pos (hiff.mpr h), if_pos h]
  · rw [if_neg (fun hc => h (hiff.mp hc)), if_neg h]

/-- C8: a pass whose length exceeds the scanned extent (width for the
horizontal pass, height for the vertical pass) returns the mask unchanged. -/
theorem c8_oversized_length_noop (height width length : ℕ) (threshold : ℚ)
    (vis : Grid) (mask : Mask) :
    (length > width → horizontal_sum_threshold height width vis mask length threshold = mask) ∧
    (length > height → vertical_sum_threshold height width vis mask length threshold = mask) := by
  constructor
  · intro h
    rw [horizontal_sum_threshold, if_pos h]
  · intro h
    rw [vertical_sum_threshold, if_pos h]

/-- Witness for c8 on a 1-by-1 grid with length 2. -/
theorem c8_witness :
    2 > 1 ∧
    horizontal_sum_threshold 1 1 visC1 emptyMask 2 3 = emptyMask ∧
    vertical_sum_threshold 1 1 visC1 emptyMask 2 3 = emptyMask :=
  ⟨by decide,
   (c8_oversized_length_noop 1 1 2 3 visC1 emptyMask).1 (by decide),
   (c8_oversized_length_noop 1 1 2 3 visC1 emptyMask).2 (by decide)⟩

/-- C9: during a length > 1 pass, each line's output depends only on that
line's visibility samples and snapshot mask (rows for the horizontal pass,
columns for the vertical pass): two runs whose inputs agree on a line agree
on that line of the output. -/
theorem c9_line_independence (height width length : ℕ) (threshold : ℚ)
    (vis1 vis2 : Grid) (mask1 mask2 : Mask) (hL : 1 < length) :
    (∀ y, (∀ x, x < width → vis1 y x = vis2 y x) →
      (∀ x, x < width → mask1 y x = mask2 y x) →
      ∀ x, x < width →
        horizontal_sum_threshold height width vis1 mask1 length threshold y x =
        horizontal_sum_threshold height width vis2 mask2 length threshold y x) ∧
    (∀ x, (∀ y, y < height → vis1 y x = vis2 y x) →
      (∀ y, y < height → mask1 y x = mask2 y x) →
      ∀ y, y < height →
        vertical_sum_threshold height width vis1 mask1 length threshold y x =
        vertical_sum_threshold height width vis2 mask2 length threshold y x) := by
  constructor
  · intro y hv hm x hx
    by_cases hw : length > width
    · rw [horizontal_sum_threshold, if_pos hw, horizontal_sum_threshold, if_pos hw]
      exact hm x hx
    · rw [horizontal_apply_gt_one height width length threshold vis1 mask1 hL hw,
          horizontal_apply_gt_one height width length threshold vis2 mask2 hL hw]
      by_cases hy : y < height
      · rw [if_pos hy, if_pos hy]
        exact horizRow_congr width length threshold (vis1 y) (vis2 y) (mask1 y) (mask2 y)
          (mask1 y) (mask2 y) (by omega) hv hm hm x hx
      · rw [if_neg hy, if_neg hy]
        exact hm x hx
  · intro x hv hm y hy
    by_cases hh : length > height
    · rw [vertical_sum_threshold, if_pos hh, vertical_sum_threshold, if_pos hh]
      exact hm y hy
    · rw [vertical_apply_gt_one height width length threshold vis1 mask1 hL hh,
          vertical_apply_gt_one height width length threshold vis2 mask2 hL hh]
      by_cases hx : x < width
      · rw [if_pos hx, if_pos hx, vertCol_eq_horizRow, vertCol_eq_horizRow]
        exact horizRow_congr height length threshold (fun yy => vis1 yy x)
          (fun yy => vis2 yy x) (fun yy => mask1 yy x) (fun yy => mask2 yy x)
          (fun yy => mask1 yy x) (fun yy => mask2 yy x) (by omega) hv hm hm y hy
      · rw [if_neg hx, if_neg hx]
        exact hm y hy

/-- Witness for c9: two grids that agree on row 0 but differ on row 1 give
the same horizontal-pass output on row 0. -/
theorem c9_witness :
    1 < 2 ∧
    horizontal_sum_threshold 2 3 (gridOfList [[9, 0, 0], [0, 0, 0]]) emptyMask 2 3 0 1 =
      horizontal_sum_threshold 2 3 (gridOfList [[9, 0, 0], [7, 7, 7]]) emptyMask 2 3 0 1 :=
  ⟨by decide,
   (c9_line_independence 2 3 2 3 (gridOfList [[9, 0, 0], [0, 0, 0]])
      (gridOfList [[9, 0, 0], [7, 7, 7]]) emptyMask emptyMask (by decide)).1 0
      (by with_unfolding_all decide) (by decide) 1 (by decide)⟩

/-- C10: the vertical scan is the horizontal scan of the transposed grids,
transposed back: at every cell the two sides agree, for every length,
threshold, visibility and mask. -/
theorem c10_transpose_equivalence (height width length : ℕ) (threshold : ℚ)
    (vis : Grid) (mask : Mask) (y x : ℕ) :
    vertical_sum_threshold height width vis mask length threshold y x =
    horizontal_sum_threshold width height (fun a b => vis b a) (fun a b => mask b a)
      length threshold x y := by
  by_cases hg : length > height
  · rw [vertical_sum_threshold, if_pos hg, horizontal_sum_threshold, if_pos hg]
  · by_cases h1 : length = 1
    · subst h1
      rw [vertical_sum_threshold, if_neg hg, if_pos rfl,
          horizontal_sum_threshold, if_neg hg, if_pos rfl,
          lenOnePass_apply, lenOnePass_apply]
      by_cases hb : y < height ∧ x < width
      · rw [if_pos hb, if_pos ⟨hb.2, hb.1⟩]
      · rw [if_neg hb, if_neg (by tauto)]
    · by_cases hL : 1 < length
      · rw [vertical_apply_gt_one height width length threshold vis mask hL hg,
            horizontal_apply_gt_one width height length threshold
              (fun a b => vis b a) (fun a b => mask b a) hL hg]
        by_cases hx : x < width
        · rw [if_pos hx, if_pos hx, vertCol_eq_horizRow]
        · rw [if_neg hx, if_neg hx]
      · have h0 : length = 0 := by omega
        subst h0
        rw [vertical_sum_threshold, if_neg hg, if_neg (by omega), if_neg (by omega),
            horizontal_sum_threshold, if_neg hg, if_neg (by omega), if_neg (by omega)]
